import Mathlib

/-!
Verification development for the pg_where_guard extension
(source: src/src/lib.rs).

The extension interposes on the host post_parse_analyze_hook extension
point.  Its hook function where_checker walks the analyzed query tree,
recursing into modifying common table expressions, and raises an
ereport ERROR (modelled as a Violation) when an UPDATE or DELETE
statement has no WHERE clause; afterwards it chains to the previously
registered hook.

Null raw pointers of the source are modelled as Option; the ereport
ERROR non-local abort is modelled by an Option Violation field that
short-circuits the rest of the computation; calls to the previous hook
are recorded as a trace of the argument triples passed to it.
-/

/-- Command tags of the host query tree (pg_sys CmdType). -/
inductive CmdType where
  | CMD_UNKNOWN
  | CMD_SELECT
  | CMD_UPDATE
  | CMD_INSERT
  | CMD_DELETE
  | CMD_MERGE
  | CMD_UTILITY
  | CMD_NOTHING
deriving DecidableEq

/-- Opaque host expression node (only ever null-tested by the source). -/
inductive Node where
  | mk
deriving DecidableEq

/-- The query's join tree (pg_sys FromExpr); the source only reads quals. -/
structure FromExpr where
  quals : Option Node
deriving DecidableEq

mutual
/-- The host query tree, restricted to the fields the source reads:
commandType, jointree, hasModifyingCTE and cteList.  A cteList cell may
be null, and its item pointer may be null, hence the two Option layers
around each CommonTableExpr. -/
inductive Query where
  | mk (commandType : CmdType) (jointree : Option FromExpr)
       (hasModifyingCTE : Bool)
       (cteList : Option (List (Option (Option CommonTableExpr)))) : Query

/-- A common table expression; the source only reads its ctequery
pointer, cast to a Query. -/
inductive CommonTableExpr where
  | mk (ctequery : Option Query) : CommonTableExpr
end

def Query.commandType : Query → CmdType
  | .mk c _ _ _ => c

def Query.jointree : Query → Option FromExpr
  | .mk _ j _ _ => j

def Query.hasModifyingCTE : Query → Bool
  | .mk _ _ h _ => h

def Query.cteList : Query → Option (List (Option (Option CommonTableExpr)))
  | .mk _ _ _ l => l

def CommonTableExpr.ctequery : CommonTableExpr → Option Query
  | .mk q => q

/-- The sql error codes of the source that matter here
(PgSqlErrorCode); the extension only ever raises with
ERRCODE_CARDINALITY_VIOLATION. -/
inductive PgSqlErrorCode where
  | ERRCODE_CARDINALITY_VIOLATION
  | ERRCODE_INTERNAL_ERROR
  | ERRCODE_DIVISION_BY_ZERO
deriving DecidableEq

/-- An ereport ERROR raised by the extension: its error code and its
human readable message. -/
structure Violation where
  code : PgSqlErrorCode
  message : String
deriving DecidableEq

/-- Model of the unsafe helper pg_list_foreach (lib.rs lines 15-34).
The source loops i over 0..list_length, reads list_nth_cell(list, i),
skips a null cell, reads its ptr_value, skips a null item and otherwise
hands the item to the closure.  Indexed access to cell i in increasing
order is a left fold over the cell list; the closure's captured mutable
state is threaded explicitly as the accumulator. -/
def pg_list_foreach {T α : Type} (list_ptr : Option (List (Option (Option T))))
    (closure : α → T → α) (init : α) : α :=
  match list_ptr with
  | none => init
  | some cells =>
    cells.foldl (fun acc cell =>
      match cell with
      | none => acc
      | some item_ptr =>
        match item_ptr with
        | none => acc
        | some item => closure acc item) init

/-- The trace of calls made to the previously registered hook: each
entry is the argument triple (pstate, query, jstate) of one call. -/
abbrev HookTrace (P J : Type) := List (P × Option Query × J)

/-- Result of one invocation of the hook: the calls it made to the
previous hook, and the ereport ERROR it raised, if any (raising aborts
everything after it, so a some violation means nothing further ran). -/
structure HookOutcome (P J : Type) where
  trace : HookTrace P J
  violation : Option Violation

/-- The trace produced by the source fragment
if let Some(prev_hook) = PREV_POST_PARSE_ANALYZE_HOOK then
prev_hook(pstate, query, jstate): one call when a previous hook is
installed, none otherwise. -/
def call_prev_hook {P J : Type} (prev_installed : Bool) (pstate : P)
    (query : Option Query) (jstate : J) : HookTrace P J :=
  if prev_installed then [(pstate, query, jstate)] else []

/-- The command classification of the main query (lib.rs lines 66-96):
DELETE and UPDATE raise ERRCODE_CARDINALITY_VIOLATION when the jointree
is non-null and its quals are null; all other command types pass. -/
def check_statement (q : Query) : Option Violation :=
  match q.commandType with
  | CmdType.CMD_DELETE =>
    match q.jointree with
    | some jointree =>
      if jointree.quals.isNone then
        some ⟨PgSqlErrorCode.ERRCODE_CARDINALITY_VIOLATION,
              "DELETE requires a WHERE clause"⟩
      else none
    | none => none
  | CmdType.CMD_UPDATE =>
    match q.jointree with
    | some jointree =>
      if jointree.quals.isNone then
        some ⟨PgSqlErrorCode.ERRCODE_CARDINALITY_VIOLATION,
              "UPDATE requires a WHERE clause"⟩
      else none
    | none => none
  | _ => none

mutual

/-- Model of the hook function where_checker (lib.rs lines 39-102).
enabled is the value PG_WHERE_GUARD_ENABLED.get() reads during this
request; prev_installed records whether PREV_POST_PARSE_ANALYZE_HOOK is
Some.  When the guard is disabled or the query pointer is null, the
previous hook is chained to at once; otherwise the CTE stage runs, then
the main query is classified, and finally the previous hook is chained
to, unless a violation aborted the invocation first. -/
def where_checker {P J : Type} (enabled prev_installed : Bool)
    (pstate : P) (query : Option Query) (jstate : J) : HookOutcome P J :=
  if !enabled || query.isNone then
    ⟨call_prev_hook prev_installed pstate query jstate, none⟩
  else
    match query with
    | none =>
      -- unreachable: a none query was already handled by the test above
      ⟨call_prev_hook prev_installed pstate none jstate, none⟩
    | some q =>
      let cte_out := cte_stage enabled prev_installed pstate jstate q
      match cte_out.violation with
      | some v => ⟨cte_out.trace, some v⟩
      | none =>
        match check_statement q with
        | some v => ⟨cte_out.trace, some v⟩
        | none =>
          ⟨cte_out.trace ++ call_prev_hook prev_installed pstate query jstate,
           none⟩
termination_by sizeOf query

/-- The CTE stage of where_checker (lib.rs lines 55-63): when
hasModifyingCTE is set and cteList is non-null, walk the cte list as
pg_list_foreach does, recursing into each non-null ctequery. -/
def cte_stage {P J : Type} (enabled prev_installed : Bool)
    (pstate : P) (jstate : J) (q : Query) : HookOutcome P J :=
  if q.hasModifyingCTE then
    match h : q.cteList with
    | none => ⟨[], none⟩
    | some cells => eval_cte_cells enabled prev_installed pstate jstate cells
  else ⟨[], none⟩
termination_by sizeOf q
decreasing_by
  cases q with
  | mk qc qj qm ql =>
    simp [Query.cteList] at h
    subst h
    simp
    omega

/-- The walk pg_list_foreach performs over the cte list with the
closure of lib.rs lines 56-62: skip null cells and null items (as
pg_list_foreach does) and null ctequery pointers (as the closure does),
and recursively invoke where_checker on each remaining nested query; a
violation raised inside a nested invocation aborts the walk. -/
def eval_cte_cells {P J : Type} (enabled prev_installed : Bool)
    (pstate : P) (jstate : J) :
    List (Option (Option CommonTableExpr)) → HookOutcome P J
  | [] => ⟨[], none⟩
  | cell :: rest =>
    match cell with
    | none => eval_cte_cells enabled prev_installed pstate jstate rest
    | some item =>
      match item with
      | none => eval_cte_cells enabled prev_installed pstate jstate rest
      | some cte =>
        match hq : cte.ctequery with
        | none => eval_cte_cells enabled prev_installed pstate jstate rest
        | some cq =>
          let r := where_checker enabled prev_installed pstate (some cq) jstate
          match r.violation with
          | some v => ⟨r.trace, some v⟩
          | none =>
            let rr := eval_cte_cells enabled prev_installed pstate jstate rest
            ⟨r.trace ++ rr.trace, rr.violation⟩
termination_by cells => sizeOf cells
decreasing_by
  all_goals simp_wf
  cases cte with
  | mk oq =>
    simp [CommonTableExpr.ctequery] at hq
    subst hq
    simp
    omega

end

/-- The CTE items pg_list_foreach hands to the closure: the entries of
the cell list whose cell and item pointer are both non-null, in list
order. -/
def present_ctes (cells : List (Option (Option CommonTableExpr))) :
    List CommonTableExpr :=
  cells.filterMap (fun c => c.bind id)

/-- The nested queries the CTE walk recurses into: the present CTE
items whose ctequery pointer is non-null, in list order. -/
def cte_queries (cells : List (Option (Option CommonTableExpr))) :
    List Query :=
  (present_ctes cells).filterMap (fun cte => cte.ctequery)

/-- A value the host extension point can hold: this extension's hook
function, or some other extension's hook (indexed arbitrarily). -/
inductive HookVal where
  | where_checker_hook : HookVal
  | external_hook : Nat → HookVal
deriving DecidableEq

/-- The process-wide registration state the source touches:
the host extension point pg_sys post_parse_analyze_hook, and this
extension's static PREV_POST_PARSE_ANALYZE_HOOK (lib.rs line 9),
whose static initializer is None. -/
structure HookState where
  post_parse_analyze_hook : Option HookVal
  prev_post_parse_analyze_hook : Option HookVal
deriving DecidableEq

/-- Model of _PG_init (lib.rs lines 106-120), restricted to the hook
registration it performs (lines 117-119): capture the current hook into
PREV_POST_PARSE_ANALYZE_HOOK, then install where_checker.  The GUC
registration it also performs touches only the host GUC registry,
modelled separately below. -/
def _PG_init (s : HookState) : HookState :=
  ⟨some HookVal.where_checker_hook, s.post_parse_analyze_hook⟩

/-- Model of _PG_fini (lib.rs lines 124-127): write
PREV_POST_PARSE_ANALYZE_HOOK back into the extension point; the static
itself is left unchanged. -/
def _PG_fini (s : HookState) : HookState :=
  ⟨s.prev_post_parse_analyze_hook, s.prev_post_parse_analyze_hook⟩

/-- Model of a pgrx GucSetting of bool: the value it currently holds.
GucSetting new b yields a setting holding the boot value b. -/
structure GucSetting where
  value : Bool
deriving DecidableEq

def GucSetting.new (b : Bool) : GucSetting := ⟨b⟩

def GucSetting.get (s : GucSetting) : Bool := s.value

/-- The static PG_WHERE_GUARD_ENABLED (lib.rs line 12) as initialized:
GucSetting of bool new true. -/
def PG_WHERE_GUARD_ENABLED : GucSetting := GucSetting.new true

/-- Model of the exposed function pg_where_guard_is_enabled (lib.rs
lines 131-133): read the GUC setting.  As a state transformer it
returns the current value and the state it was given. -/
def pg_where_guard_is_enabled (s : GucSetting) : Bool × GucSetting :=
  (s.get, s)

/-- Modelled from the spec (section 3, Query Tree Handle):
filter_predicate_present is the derived boolean saying whether the
statement's join tree carries a qualifying condition.  This definition
follows the spec's words, for comparison with the source's behavior;
the source itself never computes it as one value. -/
def filter_predicate_present (q : Query) : Bool :=
  match q.jointree with
  | some jt => !jt.quals.isNone
  | none => false

def c5q : Query := Query.mk CmdType.CMD_DELETE (some ⟨none⟩) false none

def c8_state : HookState := ⟨some (HookVal.external_hook 0), none⟩

def c2q : Query := Query.mk CmdType.CMD_SELECT (some ⟨none⟩) false none

def c1q_nojoin : Query := Query.mk CmdType.CMD_DELETE none false none

def c1q_bad_delete : Query :=
  Query.mk CmdType.CMD_DELETE (some ⟨none⟩) false none

def c1q_update : Query :=
  Query.mk CmdType.CMD_UPDATE (some ⟨some Node.mk⟩) true
    (some [some (some (CommonTableExpr.mk (some c1q_bad_delete)))])

def c1w : Query := Query.mk CmdType.CMD_DELETE (some ⟨none⟩) false none

def c3q_inner : Query := Query.mk CmdType.CMD_SELECT (some ⟨none⟩) false none

def c3q_outer : Query :=
  Query.mk CmdType.CMD_SELECT (some ⟨none⟩) true
    (some [some (some (CommonTableExpr.mk (some c3q_inner)))])

def c3w : Query := Query.mk CmdType.CMD_SELECT (some ⟨none⟩) false none

def c4q_bad_delete : Query :=
  Query.mk CmdType.CMD_DELETE (some ⟨none⟩) false none

def c4cells : List (Option (Option CommonTableExpr)) :=
  [some (some (CommonTableExpr.mk (some c4q_bad_delete)))]

def c4q_outer : Query :=
  Query.mk CmdType.CMD_SELECT (some ⟨none⟩) true (some c4cells)

def c6q : Query := Query.mk CmdType.CMD_UPDATE (some ⟨none⟩) false none

lemma sizeOf_lt_of_cteList_eq {q : Query}
    {cells : List (Option (Option CommonTableExpr))}
    (h : q.cteList = some cells) : sizeOf cells < sizeOf q := by
  cases q with
  | mk c j hm l =>
    simp [Query.cteList] at h
    subst h
    simp
    omega

lemma sizeOf_lt_of_ctequery_eq {cte : CommonTableExpr} {cq : Query}
    (h : cte.ctequery = some cq) : sizeOf cq < sizeOf cte := by
  cases cte with
  | mk oq =>
    simp [CommonTableExpr.ctequery] at h
    subst h
    simp
    omega

lemma where_checker_skip {P J : Type} (enabled prev_installed : Bool)
    (pstate : P) (query : Option Query) (jstate : J)
    (h : enabled = false ∨ query = none) :
    where_checker enabled prev_installed pstate query jstate =
      ⟨call_prev_hook prev_installed pstate query jstate, none⟩ := by
  rcases h with h | h <;> subst h <;> (rw [where_checker.eq_def]; simp)

lemma where_checker_some_eq {P J : Type} (prev_installed : Bool)
    (pstate : P) (jstate : J) (q : Query) :
    where_checker true prev_installed pstate (some q) jstate =
      (match (cte_stage true prev_installed pstate jstate q).violation with
       | some v => ⟨(cte_stage true prev_installed pstate jstate q).trace, some v⟩
       | none =>
         match check_statement q with
         | some v => ⟨(cte_stage true prev_installed pstate jstate q).trace, some v⟩
         | none =>
           ⟨(cte_stage true prev_installed pstate jstate q).trace ++
              call_prev_hook prev_installed pstate (some q) jstate, none⟩) := by
  rw [where_checker]
  simp

lemma cte_stage_not_modifying {P J : Type} (enabled prev_installed : Bool)
    (pstate : P) (jstate : J) (q : Query) (h : q.hasModifyingCTE = false) :
    cte_stage enabled prev_installed pstate jstate q = ⟨[], none⟩ := by
  rw [cte_stage.eq_def]
  simp [h]

lemma cte_stage_no_list {P J : Type} (enabled prev_installed : Bool)
    (pstate : P) (jstate : J) (q : Query) (h : q.cteList = none) :
    cte_stage enabled prev_installed pstate jstate q = ⟨[], none⟩ := by
  rw [cte_stage.eq_def]
  split
  · split <;> simp_all
  · rfl

lemma cte_stage_cells {P J : Type} (enabled prev_installed : Bool)
    (pstate : P) (jstate : J) (q : Query)
    (cells : List (Option (Option CommonTableExpr)))
    (hm : q.hasModifyingCTE = true) (hc : q.cteList = some cells) :
    cte_stage enabled prev_installed pstate jstate q =
      eval_cte_cells enabled prev_installed pstate jstate cells := by
  rw [cte_stage.eq_def]
  simp only [hm, if_true]
  split <;> simp_all

lemma eval_cte_cells_nil {P J : Type} (enabled prev_installed : Bool)
    (pstate : P) (jstate : J) :
    eval_cte_cells (P := P) (J := J) enabled prev_installed pstate jstate [] =
      ⟨[], none⟩ := by
  rw [eval_cte_cells]

lemma eval_cte_cells_cell_null {P J : Type} (enabled prev_installed : Bool)
    (pstate : P) (jstate : J) (rest : List (Option (Option CommonTableExpr))) :
    eval_cte_cells enabled prev_installed pstate jstate (none :: rest) =
      eval_cte_cells enabled prev_installed pstate jstate rest := by
  rw [eval_cte_cells]

lemma eval_cte_cells_item_null {P J : Type} (enabled prev_installed : Bool)
    (pstate : P) (jstate : J) (rest : List (Option (Option CommonTableExpr))) :
    eval_cte_cells enabled prev_installed pstate jstate (some none :: rest) =
      eval_cte_cells enabled prev_installed pstate jstate rest := by
  rw [eval_cte_cells]

lemma eval_cte_cells_ctequery_null {P J : Type} (enabled prev_installed : Bool)
    (pstate : P) (jstate : J) (cte : CommonTableExpr)
    (rest : List (Option (Option CommonTableExpr)))
    (h : cte.ctequery = none) :
    eval_cte_cells enabled prev_installed pstate jstate
        (some (some cte) :: rest) =
      eval_cte_cells enabled prev_installed pstate jstate rest := by
  rw [eval_cte_cells]
  split <;> simp_all

lemma eval_cte_cells_cons {P J : Type} (enabled prev_installed : Bool)
    (pstate : P) (jstate : J) (cte : CommonTableExpr) (cq : Query)
    (rest : List (Option (Option CommonTableExpr)))
    (h : cte.ctequery = some cq) :
    eval_cte_cells enabled prev_installed pstate jstate
        (some (some cte) :: rest) =
      (match (where_checker enabled prev_installed pstate (some cq) jstate).violation with
       | some v =>
         ⟨(where_checker enabled prev_installed pstate (some cq) jstate).trace, some v⟩
       | none =>
         ⟨(where_checker enabled prev_installed pstate (some cq) jstate).trace ++
            (eval_cte_cells enabled prev_installed pstate jstate rest).trace,
          (eval_cte_cells enabled prev_installed pstate jstate rest).violation⟩) := by
  rw [eval_cte_cells]
  split <;> simp_all

lemma check_statement_other (q : Query)
    (h1 : q.commandType ≠ CmdType.CMD_UPDATE)
    (h2 : q.commandType ≠ CmdType.CMD_DELETE) :
    check_statement q = none := by
  unfold check_statement
  cases hq : q.commandType <;> simp_all

lemma check_statement_cases (q : Query) (v : Violation)
    (h : check_statement q = some v) :
    (q.commandType = CmdType.CMD_DELETE ∧
      v = ⟨PgSqlErrorCode.ERRCODE_CARDINALITY_VIOLATION,
           "DELETE requires a WHERE clause"⟩) ∨
    (q.commandType = CmdType.CMD_UPDATE ∧
      v = ⟨PgSqlErrorCode.ERRCODE_CARDINALITY_VIOLATION,
           "UPDATE requires a WHERE clause"⟩) := by
  unfold check_statement at h
  cases hq : q.commandType <;> simp_all <;>
    (cases hj : q.jointree <;> simp_all)

lemma check_statement_delete_isSome (q : Query)
    (h : q.commandType = CmdType.CMD_DELETE ∨
         q.commandType = CmdType.CMD_UPDATE) :
    (check_statement q).isSome =
      (q.jointree.any fun jt => jt.quals.isNone) := by
  unfold check_statement
  rcases h with h | h <;> rw [h] <;>
    (cases hj : q.jointree <;> simp_all) <;>
    (rename_i jt; cases hql : jt.quals <;> simp_all)

lemma violation_originates : ∀ n : Nat,
    (∀ (P J : Type) (e pr : Bool) (p : P) (query : Option Query) (j : J)
       (v : Violation), sizeOf query ≤ n →
       (where_checker e pr p query j).violation = some v →
       ∃ q0 : Query, check_statement q0 = some v) ∧
    (∀ (P J : Type) (e pr : Bool) (p : P) (j : J)
       (cells : List (Option (Option CommonTableExpr))) (v : Violation),
       sizeOf cells ≤ n →
       (eval_cte_cells e pr p j cells).violation = some v →
       ∃ q0 : Query, check_statement q0 = some v) := by
  intro n
  induction n using Nat.strong_induction_on with
  | _ n ih =>
    constructor
    · intro P J e pr p query j v hsz hviol
      by_cases hskip : e = false ∨ query = none
      · rw [where_checker_skip _ _ _ _ _ hskip] at hviol
        simp at hviol
      · push_neg at hskip
        obtain ⟨he, hq⟩ := hskip
        obtain ⟨q, rfl⟩ := Option.ne_none_iff_exists'.mp hq
        replace he : e = true := by cases e <;> simp_all
        subst he
        rw [where_checker_some_eq] at hviol
        cases hcs : (cte_stage true pr p j q).violation with
        | some v2 =>
          simp only [hcs] at hviol
          simp at hviol
          subst hviol
          by_cases hm : q.hasModifyingCTE
          · cases hcl : q.cteList with
            | none => rw [cte_stage_no_list _ _ _ _ _ hcl] at hcs; simp at hcs
            | some cells =>
              rw [cte_stage_cells _ _ _ _ _ _ hm hcl] at hcs
              have hlt : sizeOf cells < n := by
                have h1 := sizeOf_lt_of_cteList_eq hcl
                have h2 : sizeOf (some q) ≤ n := hsz
                simp at h2
                omega
              exact (ih (sizeOf cells) hlt).2 P J true pr p j cells v2
                (le_refl _) hcs
          · rw [Bool.not_eq_true] at hm
            rw [cte_stage_not_modifying _ _ _ _ _ hm] at hcs
            simp at hcs
        | none =>
          simp only [hcs] at hviol
          cases hchk : check_statement q with
          | some v2 =>
            simp [hchk] at hviol
            subst hviol
            exact ⟨q, hchk⟩
          | none => simp [hchk] at hviol
    · intro P J e pr p j cells v hsz hviol
      cases cells with
      | nil => rw [eval_cte_cells_nil] at hviol; simp at hviol
      | cons cell rest =>
        have hrest : sizeOf rest < n := by
          have : sizeOf (cell :: rest) ≤ n := hsz
          simp at this
          omega
        cases cell with
        | none =>
          rw [eval_cte_cells_cell_null] at hviol
          exact (ih (sizeOf rest) hrest).2 P J e pr p j rest v (le_refl _) hviol
        | some item =>
          cases item with
          | none =>
            rw [eval_cte_cells_item_null] at hviol
            exact (ih (sizeOf rest) hrest).2 P J e pr p j rest v (le_refl _) hviol
          | some cte =>
            cases hcq : cte.ctequery with
            | none =>
              rw [eval_cte_cells_ctequery_null _ _ _ _ _ _ hcq] at hviol
              exact (ih (sizeOf rest) hrest).2 P J e pr p j rest v (le_refl _)
                hviol
            | some cq =>
              rw [eval_cte_cells_cons _ _ _ _ _ _ _ hcq] at hviol
              have hltq : sizeOf (some cq) < n := by
                have h1 := sizeOf_lt_of_ctequery_eq hcq
                have h2 : sizeOf (some (some cte) :: rest) ≤ n := hsz
                simp at h2 ⊢
                omega
              cases hwc : (where_checker e pr p (some cq) j).violation with
              | some v2 =>
                simp only [hwc] at hviol
                simp at hviol
                subst hviol
                exact (ih (sizeOf (some cq)) hltq).1 P J e pr p (some cq) j v2
                  (le_refl _) hwc
              | none =>
                simp only [hwc] at hviol
                exact (ih (sizeOf rest) hrest).2 P J e pr p j rest v (le_refl _)
                  hviol

lemma cte_queries_nil : cte_queries [] = [] := rfl

lemma cte_queries_cell_null (rest : List (Option (Option CommonTableExpr))) :
    cte_queries (none :: rest) = cte_queries rest := by
  simp [cte_queries, present_ctes]

lemma cte_queries_item_null (rest : List (Option (Option CommonTableExpr))) :
    cte_queries (some none :: rest) = cte_queries rest := by
  simp [cte_queries, present_ctes]

lemma cte_queries_cons (cte : CommonTableExpr)
    (rest : List (Option (Option CommonTableExpr))) :
    cte_queries (some (some cte) :: rest) =
      (match cte.ctequery with
       | none => cte_queries rest
       | some cq => cq :: cte_queries rest) := by
  cases h : cte.ctequery <;> simp [cte_queries, present_ctes, h]

/-- When the CTE walk raises no violation, its trace is the
concatenation, in declaration order, of the traces of the recursive
where_checker invocations on the present nested queries. -/
lemma eval_cte_cells_trace {P J : Type} (e pr : Bool) (p : P) (j : J) :
    ∀ cells : List (Option (Option CommonTableExpr)),
      (eval_cte_cells e pr p j cells).violation = none →
      (eval_cte_cells e pr p j cells).trace =
        ((cte_queries cells).map
          (fun cq => (where_checker e pr p (some cq) j).trace)).flatten := by
  intro cells
  induction cells with
  | nil => intro _; rw [eval_cte_cells_nil]; simp [cte_queries_nil]
  | cons cell rest ihr =>
    intro hnone
    cases cell with
    | none =>
      rw [eval_cte_cells_cell_null] at hnone ⊢
      rw [cte_queries_cell_null]
      exact ihr hnone
    | some item =>
      cases item with
      | none =>
        rw [eval_cte_cells_item_null] at hnone ⊢
        rw [cte_queries_item_null]
        exact ihr hnone
      | some cte =>
        cases hcq : cte.ctequery with
        | none =>
          rw [eval_cte_cells_ctequery_null _ _ _ _ _ _ hcq] at hnone ⊢
          rw [cte_queries_cons, hcq]
          exact ihr hnone
        | some cq =>
          rw [eval_cte_cells_cons _ _ _ _ _ _ _ hcq] at hnone ⊢
          rw [cte_queries_cons, hcq]
          cases hwc : (where_checker e pr p (some cq) j).violation with
          | some v2 => simp only [hwc] at hnone; simp at hnone
          | none =>
            simp only [hwc] at hnone ⊢
            simp
            exact ihr hnone

/-- Evaluation helper: on an enabled run over a present query that
triggers no CTE recursion, where_checker classifies the statement and
then either aborts or chains to the previous hook. -/
lemma where_checker_simple {P J : Type} (prev_installed : Bool) (pstate : P)
    (jstate : J) (q : Query) (hm : q.hasModifyingCTE = false) :
    where_checker true prev_installed pstate (some q) jstate =
      (match check_statement q with
       | some v => ⟨[], some v⟩
       | none => ⟨call_prev_hook prev_installed pstate (some q) jstate, none⟩) := by
  rw [where_checker_some_eq, cte_stage_not_modifying _ _ _ _ _ hm]
  cases h : check_statement q <;> simp [h]

lemma foldl_skip_eq_foldl_filterMap {T α : Type} (closure : α → T → α) :
    ∀ (cells : List (Option (Option T))) (init : α),
      cells.foldl (fun acc cell =>
        match cell with
        | none => acc
        | some item_ptr =>
          match item_ptr with
          | none => acc
          | some item => closure acc item) init =
      (cells.filterMap (fun c => c.bind id)).foldl closure init := by
  intro cells
  induction cells with
  | nil => intro init; rfl
  | cons cell rest ihr =>
    intro init
    cases cell with
    | none => simpa [List.filterMap_cons] using ihr init
    | some item =>
      cases item with
      | none => simpa [List.filterMap_cons] using ihr init
      | some t => simpa [List.filterMap_cons] using ihr (closure init t)

/-- Claim C10: the list-traversal helper pg_list_foreach is total (it
is a Lean function): on a null list it returns its state unchanged, and
on a non-null list its effect on any state is that of folding the
closure, in increasing index order, over exactly those entries whose
cell and item pointer are both non-null, null cells and null items
being skipped. -/
theorem claim_C10 {T α : Type} (closure : α → T → α) (init : α)
    (cells : List (Option (Option T))) :
    pg_list_foreach none closure init = init ∧
    pg_list_foreach (some cells) closure init =
      (cells.filterMap (fun c => c.bind id)).foldl closure init := by
  exact ⟨rfl, foldl_skip_eq_foldl_filterMap closure cells init⟩

/-- Claim C5: when the configuration flag is disabled or the query
argument is absent, where_checker raises no violation and chains
directly to the previously captured interposer (when installed) with
the same argument triple. -/
theorem claim_C5 {P J : Type} (enabled prev_installed : Bool) (pstate : P)
    (query : Option Query) (jstate : J)
    (h : enabled = false ∨ query = none) :
    (where_checker enabled prev_installed pstate query jstate).violation =
      none ∧
    (where_checker enabled prev_installed pstate query jstate).trace =
      call_prev_hook prev_installed pstate query jstate := by
  rw [where_checker_skip enabled prev_installed pstate query jstate h]
  exact ⟨rfl, rfl⟩

theorem claim_C5_witness :
    (where_checker false true (0 : Nat) (some c5q) (0 : Nat)).violation =
      none ∧
    (where_checker false true (0 : Nat) (some c5q) (0 : Nat)).trace =
      [((0 : Nat), some c5q, (0 : Nat))] := by
  have h := claim_C5 false true (0 : Nat) (some c5q) (0 : Nat) (Or.inl rfl)
  simpa [call_prev_hook] using h

/-- Claim C7: _PG_init captures the currently registered hook into
PREV_POST_PARSE_ANALYZE_HOOK and installs where_checker in its place,
and _PG_fini then restores the extension point to the captured value,
so the install and uninstall pair leaves the extension point holding
what it held before install. -/
theorem claim_C7 : ∀ s : HookState,
    (_PG_init s).prev_post_parse_analyze_hook = s.post_parse_analyze_hook ∧
    (_PG_init s).post_parse_analyze_hook =
      some HookVal.where_checker_hook ∧
    (_PG_fini (_PG_init s)).post_parse_analyze_hook =
      s.post_parse_analyze_hook := by
  intro s
  exact ⟨rfl, rfl, rfl⟩

theorem claim_C8_counterexample :
    c8_state.prev_post_parse_analyze_hook = none ∧
    (_PG_fini c8_state).post_parse_analyze_hook ≠
      c8_state.post_parse_analyze_hook := by
  exact ⟨rfl, by decide⟩

/-- Claim C8 (amended): calling _PG_fini when _PG_init never ran (the
captured link still holds its static initial value none) is safe and
idempotent, but it writes none into the extension point; it leaves the
registration state unchanged exactly when the extension point already
held none, not in general. -/
theorem claim_C8 : ∀ s : HookState,
    s.prev_post_parse_analyze_hook = none →
    (_PG_fini s).post_parse_analyze_hook = none ∧
    _PG_fini (_PG_fini s) = _PG_fini s ∧
    ((_PG_fini s).post_parse_analyze_hook = s.post_parse_analyze_hook ↔
      s.post_parse_analyze_hook = none) := by
  intro s h
  cases s with
  | mk post prev =>
    simp [_PG_fini] at h ⊢
    subst h
    simp [eq_comm]

theorem claim_C8_witness :
    (_PG_fini c8_state).post_parse_analyze_hook = none ∧
    _PG_fini (_PG_fini c8_state) = _PG_fini c8_state ∧
    ((_PG_fini c8_state).post_parse_analyze_hook =
        c8_state.post_parse_analyze_hook ↔
      c8_state.post_parse_analyze_hook = none) :=
  claim_C8 c8_state rfl

/-- Claim C9: the guard configuration flag PG_WHERE_GUARD_ENABLED is
initialized with boot value true, and pg_where_guard_is_enabled returns
the flag's current value and leaves the state unchanged. -/
theorem claim_C9 :
    PG_WHERE_GUARD_ENABLED.get = true ∧
    ∀ s : GucSetting,
      (pg_where_guard_is_enabled s).1 = s.get ∧
      (pg_where_guard_is_enabled s).2 = s := by
  exact ⟨rfl, fun s => ⟨rfl, rfl⟩⟩

/-- Claim C2: for a query whose command kind is not UPDATE and not
DELETE (SELECT, INSERT, utility and the rest), the statement
classification raises nothing, so an enabled run can only raise what
its CTE stage raises. -/
theorem claim_C2 {P J : Type} (prev_installed : Bool) (pstate : P)
    (jstate : J) (q : Query)
    (h1 : q.commandType ≠ CmdType.CMD_UPDATE)
    (h2 : q.commandType ≠ CmdType.CMD_DELETE) :
    check_statement q = none ∧
    (where_checker true prev_installed pstate (some q) jstate).violation =
      (cte_stage true prev_installed pstate jstate q).violation := by
  have hcs := check_statement_other q h1 h2
  refine ⟨hcs, ?_⟩
  rw [where_checker_some_eq]
  cases hc : (cte_stage true prev_installed pstate jstate q).violation with
  | some v => simp [hc]
  | none => simp [hc, hcs]

theorem claim_C2_witness :
    check_statement c2q = none ∧
    (where_checker true true (0 : Nat) (some c2q) (0 : Nat)).violation =
      (cte_stage true true (0 : Nat) (0 : Nat) c2q).violation :=
  claim_C2 true 0 0 c2q (by decide) (by decide)

theorem claim_C1_counterexample :
    (c1q_nojoin.commandType = CmdType.CMD_DELETE ∧
     filter_predicate_present c1q_nojoin = false ∧
     (where_checker true true (0 : Nat) (some c1q_nojoin) (0 : Nat)).violation =
       none) ∧
    (c1q_update.commandType = CmdType.CMD_UPDATE ∧
     filter_predicate_present c1q_update = true ∧
     (where_checker true true (0 : Nat) (some c1q_update) (0 : Nat)).violation.isSome =
       true) := by
  refine ⟨⟨rfl, rfl, ?_⟩, ⟨rfl, rfl, ?_⟩⟩
  · rw [where_checker_simple true 0 0 c1q_nojoin rfl]
    rfl
  · rw [where_checker_some_eq,
        cte_stage_cells true true 0 0 c1q_update
          [some (some (CommonTableExpr.mk (some c1q_bad_delete)))] rfl rfl,
        eval_cte_cells_cons true true 0 0 (CommonTableExpr.mk (some c1q_bad_delete))
          c1q_bad_delete [] rfl,
        where_checker_simple true 0 0 c1q_bad_delete rfl]
    rfl

/-- Claim C1 (amended): on an enabled run over a present UPDATE or
DELETE query whose CTE stage raises no violation, where_checker raises
exactly when the query's join tree is present and carries no qualifying
condition; with the join tree absent, or with a qualifying condition
present, the statement classification raises nothing (a violation can
then only come from the CTE stage). -/
theorem claim_C1 {P J : Type} (prev_installed : Bool) (pstate : P)
    (jstate : J) (q : Query)
    (hcmd : q.commandType = CmdType.CMD_UPDATE ∨
            q.commandType = CmdType.CMD_DELETE)
    (hcte : (cte_stage true prev_installed pstate jstate q).violation = none) :
    (where_checker true prev_installed pstate (some q) jstate).violation.isSome =
      (q.jointree.any fun jt => jt.quals.isNone) := by
  have hiff := check_statement_delete_isSome q hcmd.symm
  rw [where_checker_some_eq]
  simp only [hcte]
  cases hchk : check_statement q with
  | some v => rw [← hiff, hchk]
  | none => rw [← hiff, hchk]

theorem claim_C1_witness :
    (where_checker true true (0 : Nat) (some c1w) (0 : Nat)).violation.isSome =
      (c1w.jointree.any fun jt => jt.quals.isNone) :=
  claim_C1 true 0 0 c1w (Or.inr rfl)
    (by rw [cte_stage_not_modifying true true 0 0 c1w rfl])

theorem claim_C3_counterexample :
    (where_checker true true (0 : Nat) (some c3q_outer) (1 : Nat)).violation =
      none ∧
    (where_checker true true (0 : Nat) (some c3q_outer) (1 : Nat)).trace =
      [((0 : Nat), some c3q_inner, (1 : Nat)),
       ((0 : Nat), some c3q_outer, (1 : Nat))] := by
  rw [where_checker_some_eq,
      cte_stage_cells true true 0 1 c3q_outer
        [some (some (CommonTableExpr.mk (some c3q_inner)))] rfl rfl,
      eval_cte_cells_cons true true 0 1 (CommonTableExpr.mk (some c3q_inner))
        c3q_inner [] rfl,
      where_checker_simple true 0 1 c3q_inner rfl,
      eval_cte_cells_nil]
  exact ⟨rfl, rfl⟩

/-- Claim C3 (amended): on an enabled run over a present query, when no
violation is raised the previous interposer receives the calls the CTE
stage makes (one per recursively evaluated CTE subquery, with that
subquery as the query argument) followed by exactly one call with the
original argument triple; when a violation is raised the frame makes no
call of its own, the trace being exactly the completed CTE stage's; and
when the query triggers no CTE recursion the CTE stage makes no calls,
so the original claim holds there: exactly one call on success, zero on
violation. -/
theorem claim_C3 {P J : Type} (prev_installed : Bool) (pstate : P)
    (jstate : J) (q : Query) :
    ((where_checker true prev_installed pstate (some q) jstate).violation =
        none →
      (where_checker true prev_installed pstate (some q) jstate).trace =
        (cte_stage true prev_installed pstate jstate q).trace ++
          call_prev_hook prev_installed pstate (some q) jstate) ∧
    ((where_checker true prev_installed pstate (some q) jstate).violation ≠
        none →
      (where_checker true prev_installed pstate (some q) jstate).trace =
        (cte_stage true prev_installed pstate jstate q).trace) ∧
    (q.hasModifyingCTE = false ∨ q.cteList = none →
      (cte_stage true prev_installed pstate jstate q).trace = []) := by
  refine ⟨?_, ?_, ?_⟩
  · intro hnone
    rw [where_checker_some_eq] at hnone ⊢
    cases hc : (cte_stage true prev_installed pstate jstate q).violation with
    | some v => simp [hc] at hnone
    | none =>
      cases hchk : check_statement q with
      | some v => simp [hc, hchk] at hnone
      | none => simp [hc, hchk]
  · intro hsome
    rw [where_checker_some_eq] at hsome ⊢
    cases hc : (cte_stage true prev_installed pstate jstate q).violation with
    | some v => simp [hc]
    | none =>
      cases hchk : check_statement q with
      | some v => simp [hc, hchk]
      | none => simp [hc, hchk] at hsome
  · intro h
    rcases h with h | h
    · rw [cte_stage_not_modifying _ _ _ _ _ h]
    · rw [cte_stage_no_list _ _ _ _ _ h]

theorem claim_C3_witness :
    ((where_checker true true (0 : Nat) (some c3w) (1 : Nat)).violation =
        none →
      (where_checker true true (0 : Nat) (some c3w) (1 : Nat)).trace =
        (cte_stage true true (0 : Nat) (1 : Nat) c3w).trace ++
          call_prev_hook true (0 : Nat) (some c3w) (1 : Nat)) ∧
    (cte_stage true true (0 : Nat) (1 : Nat) c3w).trace = [] :=
  ⟨(claim_C3 true 0 1 c3w).1, (claim_C3 true 0 1 c3w).2.2 (Or.inl rfl)⟩

/-- Claim C4: on an enabled run over a present query with
hasModifyingCTE set and a non-null cte list, the CTE walk recursively
invokes where_checker on each present nested query in declaration order
(when it raises nothing, its trace is the in-order concatenation of the
nested invocations' traces), and a violation raised inside the walk is
the whole invocation's outcome: the outer statement is never classified
and the previous hook is not chained to, whatever the outer command
kind and join tree are. -/
theorem claim_C4 {P J : Type} (prev_installed : Bool) (pstate : P)
    (jstate : J) (q : Query)
    (cells : List (Option (Option CommonTableExpr)))
    (hm : q.hasModifyingCTE = true) (hc : q.cteList = some cells) :
    (∀ v : Violation,
      (eval_cte_cells true prev_installed pstate jstate cells).violation =
        some v →
      where_checker true prev_installed pstate (some q) jstate =
        ⟨(eval_cte_cells true prev_installed pstate jstate cells).trace,
         some v⟩) ∧
    ((eval_cte_cells true prev_installed pstate jstate cells).violation =
        none →
      (eval_cte_cells true prev_installed pstate jstate cells).trace =
        ((cte_queries cells).map
          (fun cq =>
            (where_checker true prev_installed pstate (some cq) jstate).trace)).flatten) := by
  constructor
  · intro v hv
    rw [where_checker_some_eq, cte_stage_cells _ _ _ _ _ _ hm hc, hv]
  · exact eval_cte_cells_trace true prev_installed pstate jstate cells

theorem claim_C4_witness :
    where_checker true true (0 : Nat) (some c4q_outer) (1 : Nat) =
      ⟨[], some ⟨PgSqlErrorCode.ERRCODE_CARDINALITY_VIOLATION,
                 "DELETE requires a WHERE clause"⟩⟩ := by
  have hev : eval_cte_cells true true (0 : Nat) (1 : Nat) c4cells =
      ⟨[], some ⟨PgSqlErrorCode.ERRCODE_CARDINALITY_VIOLATION,
                 "DELETE requires a WHERE clause"⟩⟩ := by
    show eval_cte_cells true true (0 : Nat) (1 : Nat)
        [some (some (CommonTableExpr.mk (some c4q_bad_delete)))] = _
    rw [eval_cte_cells_cons true true 0 1
          (CommonTableExpr.mk (some c4q_bad_delete)) c4q_bad_delete [] rfl,
        where_checker_simple true 0 1 c4q_bad_delete rfl]
    rfl
  have h := (claim_C4 true (0 : Nat) (1 : Nat) c4q_outer c4cells rfl rfl).1
    ⟨PgSqlErrorCode.ERRCODE_CARDINALITY_VIOLATION,
     "DELETE requires a WHERE clause"⟩ (by rw [hev])
  rw [h, hev]

/-- Claim C6: every violation where_checker raises, on any input and
however deep in the CTE recursion it originates, carries the error code
ERRCODE_CARDINALITY_VIOLATION and one of the two messages naming the
offending command kind; and the statement classification ties each
message to its kind: the DELETE message is raised exactly for a DELETE
statement and the UPDATE message exactly for an UPDATE statement. -/
theorem claim_C6 :
    (∀ (P J : Type) (e pr : Bool) (p : P) (query : Option Query) (j : J)
       (v : Violation),
       (where_checker e pr p query j).violation = some v →
       v.code = PgSqlErrorCode.ERRCODE_CARDINALITY_VIOLATION ∧
       (v.message = "DELETE requires a WHERE clause" ∨
        v.message = "UPDATE requires a WHERE clause")) ∧
    (∀ (q : Query) (v : Violation), check_statement q = some v →
       (q.commandType = CmdType.CMD_DELETE ∧
        v.message = "DELETE requires a WHERE clause") ∨
       (q.commandType = CmdType.CMD_UPDATE ∧
        v.message = "UPDATE requires a WHERE clause")) := by
  constructor
  · intro P J e pr p query j v hv
    obtain ⟨q0, hq0⟩ :=
      (violation_originates (sizeOf query)).1 P J e pr p query j v
        (le_refl _) hv
    rcases check_statement_cases q0 v hq0 with ⟨_, rfl⟩ | ⟨_, rfl⟩ <;> simp
  · intro q v h
    rcases check_statement_cases q v h with ⟨h1, rfl⟩ | ⟨h1, rfl⟩
    · exact Or.inl ⟨h1, rfl⟩
    · exact Or.inr ⟨h1, rfl⟩

theorem claim_C6_witness :
    (⟨PgSqlErrorCode.ERRCODE_CARDINALITY_VIOLATION,
      "UPDATE requires a WHERE clause"⟩ : Violation).code =
        PgSqlErrorCode.ERRCODE_CARDINALITY_VIOLATION ∧
    ((⟨PgSqlErrorCode.ERRCODE_CARDINALITY_VIOLATION,
       "UPDATE requires a WHERE clause"⟩ : Violation).message =
         "DELETE requires a WHERE clause" ∨
     (⟨PgSqlErrorCode.ERRCODE_CARDINALITY_VIOLATION,
       "UPDATE requires a WHERE clause"⟩ : Violation).message =
         "UPDATE requires a WHERE clause") :=
  claim_C6.1 Nat Nat true true 0 (some c6q) 0
    ⟨PgSqlErrorCode.ERRCODE_CARDINALITY_VIOLATION,
     "UPDATE requires a WHERE clause"⟩
    (by rw [where_checker_simple true 0 0 c6q rfl]; rfl)
